import Mathlib

/-!
Verification development for the MCP protocol core of this repository:
protocol version registry and negotiator (app/mcp/adapters/base.py,
app/mcp/negotiation.py), connection handling and message dispatch
(app/mcp/server.py), and the metrics monitor (app/mcp/monitoring.py).

Python dictionaries are modelled as association lists in insertion order
(assignment replaces in place, iteration follows insertion order, as in
CPython 3.7+).  Python floats are modelled as rationals.  A Python
function that may raise is modelled with Option or Except, where the
none / error case stands for the raised exception.
-/

/-- Lookup in an insertion-ordered association list (dict subscript read). -/
def dictGet [DecidableEq α] (d : List (α × β)) (k : α) : Option β :=
  match d.find? (fun p => p.1 = k) with
  | some p => some p.2
  | none => none

/-- Assignment d[k] = v on an insertion-ordered association list: replaces the
value in place when the key exists, otherwise appends at the end. -/
def dictSet [DecidableEq α] (d : List (α × β)) (k : α) (v : β) : List (α × β) :=
  match d with
  | [] => [(k, v)]
  | (k', v') :: rest =>
    if k' = k then (k, v) :: rest else (k', v') :: dictSet rest k v

/-- Value of a decimal digit character, none for non-digits. -/
def digitVal? (c : Char) : Option Nat :=
  if '0' ≤ c ∧ c ≤ '9' then some (c.toNat - '0'.toNat) else none

/-- Accumulating decimal parser over a character list. -/
def parseNatAux : Nat → List Char → Option Nat
  | acc, [] => some acc
  | acc, c :: cs =>
    match digitVal? c with
    | some d => parseNatAux (10 * acc + d) cs
    | none => none

/-- Model of Python int(part) applied to one dotted-version component:
a non-empty all-digit string parses to its value, anything else raises
ValueError (modelled as none).  Signs and surrounding whitespace, which
Python would also accept, do not occur in version strings. -/
def parseNat? : List Char → Option Nat
  | [] => none
  | c :: cs => parseNatAux 0 (c :: cs)

/-- Model of Python str.split applied with separator "." :
the empty string yields one empty component, and every dot starts a new
component. -/
def splitOnDot : List Char → List (List Char)
  | [] => [[]]
  | c :: rest =>
    if c = '.' then [] :: splitOnDot rest
    else
      match splitOnDot rest with
      | [] => [[c]]
      | g :: gs => (c :: g) :: gs

/-- Dotted-numeric parse of a version string: some list of components when
every dot-separated part is a decimal numeral, none otherwise. -/
def vKey? (s : String) : Option (List Nat) :=
  (splitOnDot s.data).mapM parseNat?

/-- One component of a Python sort-key tuple: an int or a str
(the fallback key (0, version) mixes both). -/
inductive PyVal where
  | int (n : Nat)
  | str (s : String)
deriving DecidableEq

/-- Model of MCPProtocolNegotiator version_sort_key: the tuple of the
numeric components when the version parses, otherwise the fallback
tuple (0, version). -/
def pyTupleKey (s : String) : List PyVal :=
  match vKey? s with
  | some ns => ns.map PyVal.int
  | none => [PyVal.int 0, PyVal.str s]

/-- Comparison of two Python tuple components; none models the TypeError
Python raises when an int meets a str. -/
def pyValCmp : PyVal → PyVal → Option Ordering
  | PyVal.int a, PyVal.int b => some (compare a b)
  | PyVal.str a, PyVal.str b => some (compare a b)
  | _, _ => none

/-- Python tuple comparison, element by element with the shorter tuple
ranking first when it is a proper prefix; none models a TypeError met
before the comparison was decided. -/
def pyListCmp : List PyVal → List PyVal → Option Ordering
  | [], [] => some Ordering.eq
  | [], _ :: _ => some Ordering.lt
  | _ :: _, [] => some Ordering.gt
  | a :: as', b :: bs =>
    match pyValCmp a b with
    | none => none
    | some Ordering.eq => pyListCmp as' bs
    | some o => some o

/-- Protocol adapter as the registry and negotiator see it: its version
string and the tool names its get_supported_tools returns. -/
structure Adapter where
  version : String
  tools : List String
deriving DecidableEq

/-- ProtocolVersionRegistry state: the adapters dict keyed by version, and
the registry's own nested compatibility-matrix dict. -/
structure ProtocolVersionRegistry where
  adapters : List (String × Adapter) := []
  compatibilityMatrix : List (String × List (String × Bool)) := []
deriving DecidableEq

/-- register_adapter: dict assignment under the adapter's version; an
existing entry for the same version is overwritten in place. -/
def registerAdapter (reg : ProtocolVersionRegistry) (a : Adapter) :
    ProtocolVersionRegistry :=
  { reg with adapters := dictSet reg.adapters a.version a }

/-- get_adapter: dict lookup by version. -/
def getAdapter (reg : ProtocolVersionRegistry) (v : String) : Option Adapter :=
  dictGet reg.adapters v

/-- get_supported_versions: the adapter dict keys in insertion order. -/
def getSupportedVersions (reg : ProtocolVersionRegistry) : List String :=
  reg.adapters.map (fun p => p.1)

/-- set_compatibility: writes one directed edge into the nested dict,
creating the inner dict when absent. -/
def setCompatibility (reg : ProtocolVersionRegistry)
    (v1 v2 : String) (b : Bool) : ProtocolVersionRegistry :=
  let inner := (dictGet reg.compatibilityMatrix v1).getD []
  { reg with compatibilityMatrix :=
      dictSet reg.compatibilityMatrix v1 (dictSet inner v2 b) }

/-- are_compatible: nested dict lookup defaulting to false. -/
def areCompatible (reg : ProtocolVersionRegistry) (v1 v2 : String) : Bool :=
  (dictGet ((dictGet reg.compatibilityMatrix v1).getD []) v2).getD false

/-- First loop of find_best_version: the first client version, in the order
the client listed them, that has a registered adapter. -/
def findExactClient (reg : ProtocolVersionRegistry) : List String → Option String
  | [] => none
  | v :: rest =>
    if (getAdapter reg v).isSome then some v else findExactClient reg rest

/-- Inner loop of find_best_version's compatibility scan: the first server
version, in adapter-registration order, compatible with the given client
version. -/
def findCompatServer (reg : ProtocolVersionRegistry) (c : String) :
    List String → Option String
  | [] => none
  | s :: ss => if areCompatible reg s c then some s else findCompatServer reg c ss

/-- Outer loop of find_best_version's compatibility scan over the client
versions in client order. -/
def findCompatClient (reg : ProtocolVersionRegistry) : List String → Option String
  | [] => none
  | c :: cs =>
    match findCompatServer reg c (getSupportedVersions reg) with
    | some s => some s
    | none => findCompatClient reg cs

/-- find_best_version: exact-registration scan over the client list first,
then the compatibility scan, otherwise none. -/
def findBestVersion (reg : ProtocolVersionRegistry) (clientVersions : List String) :
    Option String :=
  match findExactClient reg clientVersions with
  | some v => some v
  | none => findCompatClient reg clientVersions

/-- Client capability document restricted to the fields the negotiator
reads; a some field models key presence in the JSON object.  The
capabilities field is modelled by the list of its members (for a JSON
list) or keys (for a JSON object). -/
structure ClientCapabilities where
  protocolVersion : Option String := none
  supportedVersions : Option (List String) := none
  versions : Option (List String) := none
  version : Option String := none
  features : Option (List String) := none
  tools : Option (List String) := none
  capabilities : Option (List String) := none
deriving DecidableEq

/-- extract_client_versions: the four capability fields are consulted in
order, defaulting to the single version 1.0. -/
def extractClientVersions (c : ClientCapabilities) : List String :=
  match c.protocolVersion with
  | some v => [v]
  | none =>
    match c.supportedVersions with
    | some vs => vs
    | none =>
      match c.versions with
      | some vs => vs
      | none =>
        match c.version with
        | some v => [v]
        | none => ["1.0"]

/-- extract_client_features: union of the features, tools and capabilities
fields.  The Python set is modelled as the concatenated list; emptiness
and the subset test used downstream are unaffected by duplicates. -/
def extractClientFeatures (c : ClientCapabilities) : List String :=
  c.features.getD [] ++ c.tools.getD [] ++ c.capabilities.getD []

/-- The negotiator's own compatibility matrix type: nested dict from server
version to client version to a flag. -/
def NegMatrix : Type := List (String × List (String × Bool))

/-- are_versions_compatible: nested lookup in the negotiator matrix,
defaulting to false. -/
def areVersionsCompatible (m : NegMatrix) (sv cv : String) : Bool :=
  (dictGet ((dictGet m sv).getD []) cv).getD false

/-- build_default_compatibility_matrix, verbatim from the source. -/
def defaultCompatibilityMatrix : NegMatrix :=
  [ ("1.0", [("1.0", true), ("0.9", true)]),
    ("1.1", [("1.1", true), ("1.0", true), ("0.9", false)]),
    ("2.0", [("2.0", true), ("1.1", false), ("1.0", false)]) ]

/-- can_provide_features: false when the version has no adapter; true when
no features are required; otherwise the subset test against the
adapter's tools. -/
def canProvideFeatures (reg : ProtocolVersionRegistry) (sv : String)
    (required : List String) : Bool :=
  match getAdapter reg sv with
  | none => false
  | some a =>
    if required.isEmpty then true
    else required.all (fun f => a.tools.contains f)

/-- Descending insertion of one string into a string-sorted list, by plain
code-point comparison as Python compares str values. -/
def insertDescStr (x : String) : List String → List String
  | [] => [x]
  | y :: ys => if compare x y = Ordering.gt then x :: y :: ys else y :: insertDescStr x ys

/-- Model of sorted(server_versions, reverse=True): plain string sort,
descending (the source sorts without a key here). -/
def sortStringsDesc (l : List String) : List String :=
  l.foldr insertDescStr []

/-- Inner loop of find_compatible_version: scanning the client versions in
client order for one compatible with the fixed server version; when the
matrix matches but the feature check fails the scan continues. -/
def findCompatVersionInner (m : NegMatrix) (reg : ProtocolVersionRegistry)
    (feats : List String) (sv : String) : List String → Bool
  | [] => false
  | cv :: cvs =>
    if areVersionsCompatible m sv cv then
      if canProvideFeatures reg sv feats then true
      else findCompatVersionInner m reg feats sv cvs
    else findCompatVersionInner m reg feats sv cvs

/-- Outer loop of find_compatible_version over the server versions already
sorted latest-first. -/
def findCompatibleVersion (m : NegMatrix) (reg : ProtocolVersionRegistry)
    (feats : List String) (cvs : List String) : List String → Option String
  | [] => none
  | sv :: svs =>
    if findCompatVersionInner m reg feats sv cvs then some sv
    else findCompatibleVersion m reg feats cvs svs

/-- Maximum scan modelling sorted(versions, key=version_sort_key,
reverse=True)[0]: the stable descending sort puts the leftmost
key-maximal element first; none models the exception when two keys are
incomparable. -/
def selectLatestGo (best : String) : List String → Option String
  | [] => some best
  | w :: ws =>
    match pyListCmp (pyTupleKey w) (pyTupleKey best) with
    | none => none
    | some Ordering.gt => selectLatestGo w ws
    | some _ => selectLatestGo best ws

/-- select_latest_version; none models the IndexError on an empty list or a
TypeError between incomparable keys. -/
def selectLatestVersion : List String → Option String
  | [] => none
  | v :: rest => selectLatestGo v rest

/-- Minimum scan modelling sorted(versions, key=version_sort_key)[0]:
the stable ascending sort puts the leftmost key-minimal element
first. -/
def fallbackGo (best : String) : List String → Option String
  | [] => some best
  | w :: ws =>
    match pyListCmp (pyTupleKey w) (pyTupleKey best) with
    | none => none
    | some Ordering.lt => fallbackGo w ws
    | some _ => fallbackGo best ws

/-- get_fallback_version: none for an empty server list, otherwise the
oldest version by the version sort key. -/
def getFallbackVersion : List String → Option String
  | [] => none
  | v :: rest => fallbackGo v rest

/-- can_client_handle_fallback: some client version whose key tuple
compares greater than or equal to the fallback's; a TypeError inside the
comparison is swallowed and that client version is skipped. -/
def canClientHandleFallback (fallback : String) (clientVersions : List String) :
    Bool :=
  clientVersions.any (fun c =>
    match pyListCmp (pyTupleKey c) (pyTupleKey fallback) with
    | some Ordering.gt => true
    | some Ordering.eq => true
    | _ => false)

/-- negotiate_protocol: exact matches first (the intersection of the Python
sets is realised as the client-ordered filtered list; the maximality
proved about the result is order-independent), then the compatibility
scan newest-first, then the fallback guarded by
can_client_handle_fallback; none models the final ValueError (or any
exception escaping the steps). -/
def negotiateProtocol (reg : ProtocolVersionRegistry) (m : NegMatrix)
    (caps : ClientCapabilities) : Option String :=
  let cvs := extractClientVersions caps
  let feats := extractClientFeatures caps
  let svs := getSupportedVersions reg
  let exact := cvs.filter (fun v => svs.contains v)
  if exact.isEmpty then
    match findCompatibleVersion m reg feats cvs (sortStringsDesc svs) with
    | some v => some v
    | none =>
      match getFallbackVersion svs with
      | some f => if canClientHandleFallback f cvs then some f else none
      | none => none
  else selectLatestVersion exact

/-- A message id value: the envelope allows a string or an integer. -/
inductive MsgId where
  | str (s : String)
  | int (n : Int)
deriving DecidableEq

/-- Inbound client message restricted to the fields the server reads. -/
structure Msg where
  type : String
  id : Option MsgId := none
  capabilities : ClientCapabilities := {}
  tool : Option String := none
deriving DecidableEq

/-- Outbound server message restricted to the fields the claims mention. -/
structure OutMsg where
  type : String
  id : Option MsgId := none
  code : Option String := none
  tool : Option String := none
  supportedVersions : Option (List String) := none
  protocolVersion : Option String := none
  requestId : Option MsgId := none
deriving DecidableEq

/-- The server hello sent after a successful negotiation. -/
def serverHelloMsg (v : String) : OutMsg :=
  { type := "hello", protocolVersion := some v }

/-- The error frame sent by handle_connection's generic exception handler. -/
def serverErrorMsg : OutMsg :=
  { type := "error", code := some "SERVER_ERROR" }

/-- The error frame sent when negotiation raises, carrying the registry's
supported versions. -/
def negotiationFailedMsg (reg : ProtocolVersionRegistry) : OutMsg :=
  { type := "error", code := some "PROTOCOL_NEGOTIATION_FAILED",
    supportedVersions := some (getSupportedVersions reg) }

/-- handle_tool_call: a missing tool field or an unsupported tool raises
ValueError (propagated to the caller as none); otherwise the adapter is
dispatched and the reply is tool_response on success or tool_error on a
raised tool exception.  The returned list records the dispatched tool
names. -/
def handleToolCall (adapter : Adapter) (dispatch : String → Except String Unit)
    (msg : Msg) : Option (OutMsg × List String) :=
  match msg.tool with
  | none => none
  | some toolName =>
    if adapter.tools.contains toolName then
      match dispatch toolName with
      | Except.ok _ =>
        some ({ type := "tool_response", id := msg.id, tool := some toolName },
          [toolName])
      | Except.error _ =>
        some ({ type := "tool_error", id := msg.id, tool := some toolName,
                code := some "TOOL_EXECUTION_ERROR" }, [toolName])
    else none

/-- handle_message: routes one Ready-state message by its type field and
always produces a reply; exceptions raised by the handlers (missing or
unsupported tool, missing negotiated version, missing adapter for the
negotiated version) are caught here and replied as HANDLER_ERROR.  The
list records tool dispatches performed while handling the message. -/
def handleMessage (reg : ProtocolVersionRegistry) (negotiatedVersion : Option String)
    (adapter : Adapter) (dispatch : String → Except String Unit) (msg : Msg) :
    OutMsg × List String :=
  if msg.type = "tool_call" then
    match handleToolCall adapter dispatch msg with
    | some r => r
    | none => ({ type := "error", id := msg.id, code := some "HANDLER_ERROR" }, [])
  else if msg.type = "ping" then
    ({ type := "pong", id := msg.id }, [])
  else if msg.type = "get_capabilities" then
    ({ type := "capabilities", id := msg.id }, [])
  else if msg.type = "get_protocol_info" then
    match negotiatedVersion with
    | none => ({ type := "error", id := msg.id, code := some "HANDLER_ERROR" }, [])
    | some v =>
      if (getAdapter reg v).isSome then
        ({ type := "protocol_info", id := msg.id }, [])
      else
        ({ type := "error", id := msg.id, code := some "HANDLER_ERROR" }, [])
  else
    ({ type := "error", id := msg.id, code := some "UNKNOWN_MESSAGE_TYPE" }, [])

/-- The error frame built by message_loop's own exception handler: the
request's id goes into the request_id key and the frame carries no id
key at all. -/
def messageProcessingErrorMsg (msg : Msg) : OutMsg :=
  { type := "error", requestId := msg.id,
    code := some "MESSAGE_PROCESSING_ERROR" }

/-- message_loop over the scripted remaining inbound frames: each message is
handled and its reply sent; exhausting the script models the client
disconnecting, which ends the loop.  sendFails tells which frames raise
while being delivered (for example a serialization failure in
send_message); handle_message itself catches handler exceptions, so the
loop's own except branch fires when delivering the primary reply
raises: it sends the MESSAGE_PROCESSING_ERROR frame (the connection
stays up and the loop continues), and when even that error send raises
the loop breaks. -/
def messageLoop (reg : ProtocolVersionRegistry) (v : String) (adapter : Adapter)
    (dispatch : String → Except String Unit) (sendFails : OutMsg → Bool) :
    List Msg → List OutMsg × List String
  | [] => ([], [])
  | msg :: rest =>
    let (resp, evs) := handleMessage reg (some v) adapter dispatch msg
    if sendFails resp then
      let err := messageProcessingErrorMsg msg
      if sendFails err then ([], evs)
      else
        let (outs, evs') := messageLoop reg v adapter dispatch sendFails rest
        (err :: outs, evs ++ evs')
    else
      let (outs, evs') := messageLoop reg v adapter dispatch sendFails rest
      (resp :: outs, evs ++ evs')

/-- handle_connection for a scripted, well-formed inbound frame sequence on
a transport whose sends succeed: returns the frames the server sent, the
tools it dispatched, and whether the connection ended closed (cleanup
always closes it).  A first message that is not hello makes
perform_handshake raise ValueError, which the generic handler answers
with SERVER_ERROR; a negotiation failure sends the
PROTOCOL_NEGOTIATION_FAILED frame and re-raises, so the generic
SERVER_ERROR frame follows it; any message type is accepted in the ready
slot (logged only).  The loop's send-failure path is modelled and proved
about separately on messageLoop itself. -/
def runConnection (reg : ProtocolVersionRegistry) (m : NegMatrix)
    (dispatch : String → Except String Unit) (inbound : List Msg) :
    List OutMsg × List String × Bool :=
  match inbound with
  | [] => ([], [], true)
  | first :: rest =>
    if first.type = "hello" then
      match negotiateProtocol reg m first.capabilities with
      | none => ([negotiationFailedMsg reg, serverErrorMsg], [], true)
      | some v =>
        match getAdapter reg v with
        | none => ([serverErrorMsg], [], true)
        | some adapter =>
          match rest with
          | [] => ([serverHelloMsg v], [], true)
          | _ready :: rest2 =>
            let (outs, evs) :=
              messageLoop reg v adapter dispatch (fun _ => false) rest2
            (serverHelloMsg v :: outs, evs, true)
    else ([serverErrorMsg], [], true)

/-- Why receive_message can fail: the connected-state guard raises
RuntimeError before any frame is read; a frame that is not valid JSON
raises ValueError after the counter moved. -/
inductive RecvError where
  | notConnected
  | invalidJson
deriving DecidableEq

/-- The per-connection state receive_message touches. -/
structure ConnState where
  connected : Bool
  messageCount : Nat
deriving DecidableEq

/-- MCPConnection.receive_message for one transport frame, parameterised by
the JSON parser: when connected, the message counter is incremented as
soon as the frame is received, before parsing is attempted; a parse
failure raises ValueError with the counter already incremented. -/
def receiveMessage (parse : String → Option α) (st : ConnState) (frame : String) :
    ConnState × Except RecvError α :=
  if st.connected then
    let st' := { st with messageCount := st.messageCount + 1 }
    match parse frame with
    | some msg => (st', Except.ok msg)
    | none => (st', Except.error RecvError.invalidJson)
  else (st, Except.error RecvError.notConnected)

/-- Per-tool metrics record; the minimum starts at the float infinity,
modelled as none, and the maximum starts at 0.0. -/
structure ToolMetrics where
  toolName : String
  totalCalls : Nat := 0
  successfulCalls : Nat := 0
  failedCalls : Nat := 0
  avgExecutionTime : ℚ := 0
  minExecutionTime : Option ℚ := none
  maxExecutionTime : ℚ := 0
  recentResponseTimes : List ℚ := []
  errorTypes : List (String × Nat) := []
deriving DecidableEq

/-- Append on a deque with maxlen 100: the oldest samples fall off the
left once the window is full. -/
def dequeAppend100 (l : List ℚ) (x : ℚ) : List ℚ :=
  if 100 < (l ++ [x]).length then (l ++ [x]).drop ((l ++ [x]).length - 100)
  else l ++ [x]

/-- The tool-metrics part of track_tool_call, in source order: bump the
total, bump the success or failure side (recording the error type when
given), push the latency into the window, update the all-time minimum
and maximum, and recompute the average over the window. -/
def trackToolCallTool (tm : ToolMetrics) (t : ℚ) (success : Bool)
    (errorType : Option String) : ToolMetrics :=
  let tm1 := { tm with totalCalls := tm.totalCalls + 1 }
  let tm2 :=
    if success then { tm1 with successfulCalls := tm1.successfulCalls + 1 }
    else
      match errorType with
      | some e =>
        let newCount := ((dictGet tm1.errorTypes e).getD 0) + 1
        { tm1 with failedCalls := tm1.failedCalls + 1,
                   errorTypes := dictSet tm1.errorTypes e newCount }
      | none => { tm1 with failedCalls := tm1.failedCalls + 1 }
  let recent := dequeAppend100 tm2.recentResponseTimes t
  let tm3 :=
    { tm2 with recentResponseTimes := recent,
               minExecutionTime := some
                 (match tm2.minExecutionTime with
                  | none => t
                  | some m => min m t),
               maxExecutionTime := max tm2.maxExecutionTime t }
  if recent.isEmpty then tm3
  else { tm3 with avgExecutionTime := recent.sum / (recent.length : ℚ) }

/-- Per-connection metrics restricted to the fields the monitor's
track_tool_call and health check read. -/
structure ConnectionMetrics where
  connectionId : String
  protocolVersion : String := ""
  lastActivity : ℚ := 0
  errors : Nat := 0
  toolCalls : List (String × Nat) := []
deriving DecidableEq

/-- Per-version metrics restricted to the connection counts the health
check reads. -/
structure ProtocolMetrics where
  protocolVersion : String
  totalConnections : Nat := 0
  activeConnections : Nat := 0
deriving DecidableEq

/-- The monitor's mutable alert thresholds with their initial values. -/
structure AlertThresholds where
  maxConnections : ℚ := 100
  maxErrorRate : ℚ := 1/10
  maxResponseTime : ℚ := 30
  connectionTimeout : ℚ := 300
deriving DecidableEq

/-- MCPMonitor state: the three metric dicts plus the thresholds. -/
structure MonitorState where
  connections : List (String × ConnectionMetrics) := []
  toolMetrics : List (String × ToolMetrics) := []
  protocolMetrics : List (String × ProtocolMetrics) := []
  thresholds : AlertThresholds := {}
deriving DecidableEq

/-- track_tool_call: update the calling connection's counters when it is
known, then lazily create and update the tool's metrics record. -/
def trackToolCall (mon : MonitorState) (connectionId toolName : String) (t : ℚ)
    (success : Bool) (errorType : Option String) : MonitorState :=
  let mon1 :=
    match dictGet mon.connections connectionId with
    | some cm =>
      let newCount := ((dictGet cm.toolCalls toolName).getD 0) + 1
      let cm1 := { cm with toolCalls := dictSet cm.toolCalls toolName newCount }
      let cm2 := if success then cm1 else { cm1 with errors := cm1.errors + 1 }
      { mon with connections := dictSet mon.connections connectionId cm2 }
    | none => mon
  let tm := (dictGet mon1.toolMetrics toolName).getD { toolName := toolName }
  let updated := trackToolCallTool tm t success errorType
  { mon1 with toolMetrics := dictSet mon1.toolMetrics toolName updated }

/-- One track_tool_call event: caller connection, tool, latency, success
flag and optional error-type tag. -/
structure ToolCallEvent where
  connectionId : String
  toolName : String
  executionTime : ℚ
  success : Bool
  errorType : Option String := none

/-- A sequence of track_tool_call events applied in submission order. -/
def applyToolCalls (mon : MonitorState) (evs : List ToolCallEvent) : MonitorState :=
  evs.foldl (fun st ev =>
    trackToolCall st ev.connectionId ev.toolName ev.executionTime ev.success
      ev.errorType) mon

/-- One entry of the health report's issue list, reduced to its type and
severity tags. -/
structure HealthIssue where
  issueType : String
  severity : String
deriving DecidableEq

/-- Total active connections: the sum over the per-version metrics. -/
def totalActiveConnections (mon : MonitorState) : Nat :=
  (mon.protocolMetrics.map (fun p => p.2.activeConnections)).sum

/-- The criterion of a critical issue for one tool: at least one call and a
failure ratio above the error-rate threshold. -/
def toolCritical (thr : ℚ) (tm : ToolMetrics) : Bool :=
  decide (0 < tm.totalCalls ∧
    (tm.failedCalls : ℚ) / (tm.totalCalls : ℚ) > thr)

/-- The criterion of a slow-response warning for one tool. -/
def toolSlow (thr : ℚ) (tm : ToolMetrics) : Bool :=
  decide (tm.avgExecutionTime > thr)

/-- The connection-count warning of get_health_status. -/
def connectionCountIssues (mon : MonitorState) : List HealthIssue :=
  if (totalActiveConnections mon : ℚ) > mon.thresholds.maxConnections then
    [{ issueType := "high_connection_count", severity := "warning" }]
  else []

/-- The per-tool error-rate issues of get_health_status, in tool-dict
order. -/
def errorRateIssues (mon : MonitorState) : List HealthIssue :=
  mon.toolMetrics.filterMap (fun p =>
    if toolCritical mon.thresholds.maxErrorRate p.2 then
      some { issueType := "high_error_rate", severity := "critical" }
    else none)

/-- The per-tool slow-response issues of get_health_status. -/
def slowResponseIssues (mon : MonitorState) : List HealthIssue :=
  mon.toolMetrics.filterMap (fun p =>
    if toolSlow mon.thresholds.maxResponseTime p.2 then
      some { issueType := "slow_response", severity := "warning" }
    else none)

/-- The stale-connection info issue: one aggregated entry when some live
connection's last activity predates the cutoff. -/
def staleIssues (now : ℚ) (mon : MonitorState) : List HealthIssue :=
  let stale := mon.connections.filter (fun p =>
    decide (p.2.lastActivity < now - mon.thresholds.connectionTimeout))
  if stale.isEmpty then []
  else [{ issueType := "stale_connections", severity := "info" }]

/-- get_health_status: the issue list in source order and the overall
status derived from the worst severity present. -/
def getHealthStatus (now : ℚ) (mon : MonitorState) : String × List HealthIssue :=
  let issues := connectionCountIssues mon ++ errorRateIssues mon ++
    slowResponseIssues mon ++ staleIssues now mon
  let status :=
    if issues.any (fun i => i.severity = "critical") then "unhealthy"
    else if issues.any (fun i => i.severity = "warning") then "degraded"
    else "healthy"
  (status, issues)

/-- Modelled from the spec's health classification words, for comparison
with the code's getHealthStatus: unhealthy when some tool with calls
exceeds the error-rate threshold, otherwise degraded when connections or
some tool's average latency exceed their thresholds, otherwise healthy;
stale connections are not consulted. -/
def specHealthStatus (mon : MonitorState) : String :=
  if mon.toolMetrics.any (fun p => toolCritical mon.thresholds.maxErrorRate p.2) then
    "unhealthy"
  else if ((totalActiveConnections mon : ℚ) > mon.thresholds.maxConnections) ∨
      mon.toolMetrics.any (fun p => toolSlow mon.thresholds.maxResponseTime p.2) then
    "degraded"
  else "healthy"

/-! Shared facts about the dict model. -/

theorem dictGet_dictSet_self [DecidableEq α] (d : List (α × β)) (k : α) (v : β) :
    dictGet (dictSet d k v) k = some v := by
  induction d with
  | nil => simp [dictSet, dictGet, List.find?]
  | cons p rest ih =>
    obtain ⟨k', v'⟩ := p
    by_cases h : k' = k
    · simp [dictSet, dictGet, List.find?, h]
    · simpa [dictSet, dictGet, List.find?, h] using ih

theorem dictGet_dictSet_ne [DecidableEq α] (d : List (α × β)) (k k' : α) (v : β)
    (h : k' ≠ k) : dictGet (dictSet d k v) k' = dictGet d k' := by
  have h' : k ≠ k' := Ne.symm h
  induction d with
  | nil => simp [dictSet, dictGet, List.find?, h']
  | cons p rest ih =>
    obtain ⟨k1, v1⟩ := p
    by_cases h1 : k1 = k
    · subst h1
      simp [dictSet, dictGet, List.find?, h']
    · by_cases h2 : k1 = k'
      · simp [dictSet, dictGet, List.find?, h1, h2, h]
      · simpa [dictSet, dictGet, List.find?, h1, h2] using ih

/-! Registry operation sequences, for the compatibility-relation claims. -/

/-- One mutating registry operation. -/
inductive RegOp where
  | register (a : Adapter)
  | setCompat (v1 v2 : String) (b : Bool)

/-- Apply one registry operation. -/
def applyRegOp (reg : ProtocolVersionRegistry) : RegOp → ProtocolVersionRegistry
  | RegOp.register a => registerAdapter reg a
  | RegOp.setCompat v1 v2 b => setCompatibility reg v1 v2 b

/-- Apply a sequence of registry operations in order. -/
def applyRegOps (reg : ProtocolVersionRegistry) : List RegOp → ProtocolVersionRegistry
  | [] => reg
  | op :: ops => applyRegOps (applyRegOp reg op) ops

/-- The value of the most recent set_compatibility for the given ordered
pair within the operation sequence, starting from a given prior value. -/
def compatAfter (v1 v2 : String) (acc : Bool) : List RegOp → Bool
  | [] => acc
  | RegOp.register _ :: ops => compatAfter v1 v2 acc ops
  | RegOp.setCompat u1 u2 b :: ops =>
    compatAfter v1 v2 (if u1 = v1 ∧ u2 = v2 then b else acc) ops

theorem areCompatible_registerAdapter (reg : ProtocolVersionRegistry) (a : Adapter)
    (v1 v2 : String) : areCompatible (registerAdapter reg a) v1 v2 =
      areCompatible reg v1 v2 := rfl

theorem areCompatible_setCompatibility (reg : ProtocolVersionRegistry)
    (u1 u2 v1 v2 : String) (b : Bool) :
    areCompatible (setCompatibility reg u1 u2 b) v1 v2 =
      if u1 = v1 ∧ u2 = v2 then b else areCompatible reg v1 v2 := by
  unfold setCompatibility areCompatible
  by_cases h1 : v1 = u1
  · subst h1
    rw [dictGet_dictSet_self]
    by_cases h2 : v2 = u2
    · subst h2
      rw [Option.getD_some, dictGet_dictSet_self]
      simp
    · have h2' : u2 ≠ v2 := Ne.symm h2
      rw [Option.getD_some, dictGet_dictSet_ne _ _ _ _ h2]
      simp [h2']
  · have h1' : u1 ≠ v1 := Ne.symm h1
    rw [dictGet_dictSet_ne _ _ _ _ h1]
    simp [h1']

theorem areCompatible_applyRegOps (ops : List RegOp) :
    ∀ (reg : ProtocolVersionRegistry) (v1 v2 : String),
      areCompatible (applyRegOps reg ops) v1 v2 =
        compatAfter v1 v2 (areCompatible reg v1 v2) ops := by
  induction ops with
  | nil => intro reg v1 v2; rfl
  | cons op ops ih =>
    intro reg v1 v2
    cases op with
    | register a =>
      simpa [applyRegOps, applyRegOp, compatAfter,
        areCompatible_registerAdapter] using ih (registerAdapter reg a) v1 v2
    | setCompat u1 u2 b =>
      rw [applyRegOps, applyRegOp, ih, compatAfter,
        areCompatible_setCompatibility]

/-- Adapter for version 1.0 with the version-1 tool surface, as the test
fixtures register it. -/
def adapterV10 : Adapter :=
  { version := "1.0", tools := ["rag_search", "rag_summarize"] }

/-- Adapter for version 1.1. -/
def adapterV11 : Adapter :=
  { version := "1.1", tools := ["rag_search", "rag_summarize"] }

/-- A second, distinct adapter claiming version 1.0. -/
def adapterV10b : Adapter := { version := "1.0", tools := [] }

/-- The registry of the end-to-end scenarios: adapters 1.0 and 1.1. -/
def scenarioRegistry : ProtocolVersionRegistry :=
  registerAdapter (registerAdapter {} adapterV10) adapterV11

/-- The negotiator matrix of the end-to-end scenarios: edges (1.0,1.0),
(1.0,0.9), (1.1,1.1), (1.1,1.0). -/
def scenarioMatrix : NegMatrix :=
  [ ("1.0", [("1.0", true), ("0.9", true)]),
    ("1.1", [("1.1", true), ("1.0", true)]) ]

/-- Capability document of a client declaring supported versions 2.0. -/
def capsOnly20 : ClientCapabilities := { supportedVersions := some ["2.0"] }

/-- C1: negotiate_protocol, for the scenario registry and matrix and a
client declaring only version 2.0, does not fail: the fallback step
accepts the oldest server version 1.0 because the client key (2,0)
compares at least (1,0), so the negotiated version 1.0 is returned and
the no-compatible-version error is never raised.  This contradicts the
negotiation-failure scenario and the repository test expecting a raised
ValueError on this input. -/
theorem negotiate_protocol_client20_returns_fallback :
    negotiateProtocol scenarioRegistry scenarioMatrix capsOnly20 = some "1.0" := by
  decide

/-- C5: the claim fails: registering a second adapter under the already
registered version 1.0 does not fail and changes the registry's mapping
for 1.0 (the first adapter is replaced). -/
theorem register_adapter_duplicate_replaces_counterexample :
    getAdapter (registerAdapter (registerAdapter {} adapterV10) adapterV10b) "1.0"
        = some adapterV10b ∧
      getAdapter (registerAdapter {} adapterV10) "1.0" = some adapterV10 := by
  decide

/-- C5 amended: register_adapter never fails; it stores the adapter under
its version unconditionally, overwriting any previously registered
adapter for that version. -/
theorem register_adapter_overwrites (reg : ProtocolVersionRegistry) (a : Adapter) :
    getAdapter (registerAdapter reg a) a.version = some a := by
  unfold registerAdapter getAdapter
  exact dictGet_dictSet_self _ _ _

/-- C6: the claim fails: after the operation sequence that registers an
adapter under 1.0 (and sets nothing else), version 1.0 is registered
yet compatible(1.0, 1.0) is false. -/
theorem compatibility_not_reflexive_counterexample :
    (getAdapter (applyRegOps {} [RegOp.register adapterV10]) "1.0").isSome = true ∧
      areCompatible (applyRegOps {} [RegOp.register adapterV10]) "1.0" "1.0"
        = false := by
  decide

/-- C6 amended: after any sequence of register_adapter and
set_compatibility operations, compatible(v1, v2) equals the value of the
most recent set_compatibility for that ordered pair, defaulting to
false; register_adapter never adds compatibility edges, so
compatible(v, v) holds only for versions given an explicit self-edge. -/
theorem are_compatible_eq_last_set (ops : List RegOp) (v1 v2 : String) :
    areCompatible (applyRegOps {} ops) v1 v2 = compatAfter v1 v2 false ops := by
  rw [areCompatible_applyRegOps]
  rfl

/-- C10: receive_message on a connected socket increments message_count by
exactly one for the received frame, and when the frame does not parse as
JSON it raises ValueError with the counter already incremented (the
increment is not rolled back). -/
theorem receive_message_counts_frames (parse : String → Option α)
    (st : ConnState) (frame : String) (h : st.connected = true) :
    (receiveMessage parse st frame).1.messageCount = st.messageCount + 1 ∧
      (parse frame = none →
        (receiveMessage parse st frame).2 = Except.error RecvError.invalidJson) := by
  unfold receiveMessage
  rw [if_pos h]
  constructor
  · cases hp : parse frame <;> simp [hp]
  · intro hp
    simp [hp]

/-- C10 witness: a connected state with count 7 and a frame rejected by the
parser. -/
theorem receive_message_counts_frames_witness :
    (ConnState.mk true 7).connected = true ∧
      ((receiveMessage (fun _ => (none : Option Nat)) (ConnState.mk true 7)
          "not json").1.messageCount = (ConnState.mk true 7).messageCount + 1 ∧
        ((fun (_ : String) => (none : Option Nat)) "not json" = none →
          (receiveMessage (fun _ => (none : Option Nat)) (ConnState.mk true 7)
            "not json").2 = Except.error RecvError.invalidJson)) :=
  ⟨rfl, receive_message_counts_frames (fun _ => (none : Option Nat))
    (ConnState.mk true 7) "not json" rfl⟩

/-! The id-echo property of the Ready-state message handler. -/

theorem handleToolCall_id_eq (a : Adapter) (d : String → Except String Unit)
    (msg : Msg) (r : OutMsg × List String) (h : handleToolCall a d msg = some r) :
    r.1.id = msg.id := by
  unfold handleToolCall at h
  split at h
  · cases h
  · split at h
    · split at h
      · cases h; rfl
      · cases h; rfl
    · cases h

/-- Every reply produced by handle_message for a Ready-state client
message — pong, tool_response, tool_error, capabilities, protocol_info,
the unknown-type error, and the error replies generated when the
handlers raise — carries the request's id value in its id field. -/
theorem handle_message_echoes_id (reg : ProtocolVersionRegistry)
    (nv : Option String) (a : Adapter) (d : String → Except String Unit)
    (msg : Msg) : (handleMessage reg nv a d msg).1.id = msg.id := by
  unfold handleMessage
  by_cases h1 : msg.type = "tool_call"
  · rw [if_pos h1]
    cases hh : handleToolCall a d msg with
    | none => rfl
    | some r => exact handleToolCall_id_eq a d msg r hh
  · rw [if_neg h1]
    by_cases h2 : msg.type = "ping"
    · rw [if_pos h2]
    · rw [if_neg h2]
      by_cases h3 : msg.type = "get_capabilities"
      · rw [if_pos h3]
      · rw [if_neg h3]
        by_cases h4 : msg.type = "get_protocol_info"
        · rw [if_pos h4]
          cases nv with
          | none => rfl
          | some v =>
            by_cases h5 : (getAdapter reg v).isSome
            · simp [h5]
            · simp [h5]
        · rw [if_neg h4]

/-! The violated first-message rule and its actual error code. -/

/-- A tool_call frame arriving as the very first message. -/
def firstToolCallMsg : Msg := { type := "tool_call", tool := some "rag_search" }

/-- A dispatch function that would succeed, to show it is never consulted. -/
def dispatchAlwaysOk : String → Except String Unit := fun _ => Except.ok ()

/-- C2: the claim fails: when the first message is a tool_call, the server
replies with the generic SERVER_ERROR error frame — not with an error of
kind ProtocolViolation carrying code PROTOCOL_VIOLATION — then closes
without dispatching any tool. -/
theorem first_message_not_hello_counterexample :
    runConnection scenarioRegistry scenarioMatrix dispatchAlwaysOk
        [firstToolCallMsg] = ([serverErrorMsg], [], true) ∧
      serverErrorMsg.code = some "SERVER_ERROR" ∧
      serverErrorMsg.code ≠ some "PROTOCOL_VIOLATION" := by
  decide

/-- C2 amended: for every connection whose first received message has a
type other than hello, perform_handshake raises ValueError, which the
generic connection handler answers with a single error frame whose code
is SERVER_ERROR; the connection then closes and no tool dispatch is
performed. -/
theorem first_message_not_hello_server_error (reg : ProtocolVersionRegistry)
    (m : NegMatrix) (d : String → Except String Unit) (first : Msg)
    (rest : List Msg) (h : first.type ≠ "hello") :
    runConnection reg m d (first :: rest) = ([serverErrorMsg], [], true) := by
  simp only [runConnection]
  rw [if_neg h]

/-- C2 witness: the scenario registry with a tool_call as first message. -/
theorem first_message_not_hello_server_error_witness :
    firstToolCallMsg.type ≠ "hello" ∧
      runConnection scenarioRegistry scenarioMatrix dispatchAlwaysOk
        [firstToolCallMsg] = ([serverErrorMsg], [], true) :=
  ⟨by decide, first_message_not_hello_server_error scenarioRegistry
    scenarioMatrix dispatchAlwaysOk firstToolCallMsg [] (by decide)⟩

/-! find_best_version scans in list order, not by the version order. -/

theorem findExactClient_eq_find (reg : ProtocolVersionRegistry) (l : List String) :
    findExactClient reg l = l.find? (fun v => (getAdapter reg v).isSome) := by
  induction l with
  | nil => rfl
  | cons v rest ih =>
    by_cases h : (getAdapter reg v).isSome
    · simp [findExactClient, List.find?, h]
    · simp only [findExactClient, if_neg h, ih, List.find?]
      simp [h]

theorem findCompatServer_eq_find (reg : ProtocolVersionRegistry) (c : String)
    (l : List String) :
    findCompatServer reg c l = l.find? (fun s => areCompatible reg s c) := by
  induction l with
  | nil => rfl
  | cons s rest ih =>
    by_cases h : areCompatible reg s c
    · simp [findCompatServer, List.find?, h]
    · simp only [findCompatServer, if_neg h, ih, List.find?]
      simp [h]

theorem findCompatClient_eq_findSome (reg : ProtocolVersionRegistry)
    (l : List String) :
    findCompatClient reg l = l.findSome? (fun c =>
      (getSupportedVersions reg).find? (fun s => areCompatible reg s c)) := by
  induction l with
  | nil => rfl
  | cons c rest ih =>
    cases hf : List.find? (fun s => areCompatible reg s c) (getSupportedVersions reg)
    · simp [findCompatClient, findCompatServer_eq_find, hf, List.findSome?_cons, ih]
    · simp [findCompatClient, findCompatServer_eq_find, hf, List.findSome?_cons]

/-- C3: the claim fails: with adapters 1.0 then 1.1 registered and the
client listing 1.0 before 1.1, the intersection is both versions and its
maximum under the dotted-numeric order is 1.1, yet find_best_version
returns 1.0 — the first client version in client-list order. -/
theorem find_best_version_not_maximum_counterexample :
    findBestVersion scenarioRegistry ["1.0", "1.1"] = some "1.0" ∧
      (["1.0", "1.1"].filter (fun v =>
        (getSupportedVersions scenarioRegistry).contains v)) = ["1.0", "1.1"] ∧
      pyListCmp (pyTupleKey "1.1") (pyTupleKey "1.0") = some Ordering.gt ∧
      some "1.0" ≠ some "1.1" := by
  decide

/-- C3 amended: find_best_version returns the first client version in
client-list order that has a registered adapter when one exists;
otherwise, scanning client versions in client-list order, the first
registered server version in adapter-registration order compatible with
that client version; otherwise none.  Neither scan maximises the
dotted-numeric version order. -/
theorem find_best_version_characterization (reg : ProtocolVersionRegistry)
    (cvs : List String) :
    findBestVersion reg cvs =
      match cvs.find? (fun v => (getAdapter reg v).isSome) with
      | some v => some v
      | none => cvs.findSome? (fun c =>
          (getSupportedVersions reg).find? (fun s => areCompatible reg s c)) := by
  unfold findBestVersion
  rw [findExactClient_eq_find, findCompatClient_eq_findSome]

/-! Health classification: issue severities determine the status. -/

theorem any_filterMap_const (l : List α) (p : α → Bool) (c : β) (q : β → Bool) :
    ((l.filterMap (fun x => if p x then some c else none)).any q) =
      (l.any p && q c) := by
  induction l with
  | nil => simp
  | cons a as ih =>
    cases hp : p a
    case false => simp [List.filterMap_cons, hp, ih]
    case true =>
      simp only [List.filterMap_cons, hp, if_true, List.any_cons, ih]
      cases hq : q c <;> cases has : as.any p <;> simp [hp, hq, has]

theorem connectionCountIssues_any (mon : MonitorState) (q : HealthIssue → Bool) :
    (connectionCountIssues mon).any q =
      (decide ((totalActiveConnections mon : ℚ) > mon.thresholds.maxConnections) &&
        q { issueType := "high_connection_count", severity := "warning" }) := by
  unfold connectionCountIssues
  split
  · next h => simp [h]
  · next h => simp [h]

theorem staleIssues_any (now : ℚ) (mon : MonitorState) (q : HealthIssue → Bool) :
    (staleIssues now mon).any q =
      ((!(mon.connections.filter (fun p =>
          decide (p.2.lastActivity < now - mon.thresholds.connectionTimeout))).isEmpty) &&
        q { issueType := "stale_connections", severity := "info" }) := by
  simp only [staleIssues]
  split
  · next h => simp [h]
  · next h => simp [h]

theorem errorRateIssues_any (mon : MonitorState) (q : HealthIssue → Bool) :
    (errorRateIssues mon).any q =
      (mon.toolMetrics.any (fun p => toolCritical mon.thresholds.maxErrorRate p.2) &&
        q { issueType := "high_error_rate", severity := "critical" }) :=
  any_filterMap_const _ _ _ _

theorem slowResponseIssues_any (mon : MonitorState) (q : HealthIssue → Bool) :
    (slowResponseIssues mon).any q =
      (mon.toolMetrics.any (fun p => toolSlow mon.thresholds.maxResponseTime p.2) &&
        q { issueType := "slow_response", severity := "warning" }) :=
  any_filterMap_const _ _ _ _

/-- C8: get_health_status classifies exactly as the spec words it: unhealthy
precisely when some tool with at least one call has a failure ratio
above max_error_rate; otherwise degraded precisely when active
connections exceed max_connections or some tool's average latency
exceeds max_response_time; otherwise healthy.  The right-hand side reads
neither the live-connection map nor the clock, so the stale-connection
info issues never alter the status. -/
theorem health_status_classification (now : ℚ) (mon : MonitorState) :
    (getHealthStatus now mon).1 = specHealthStatus mon := by
  have hall : ∀ q : HealthIssue → Bool,
      ((connectionCountIssues mon ++ errorRateIssues mon ++
        slowResponseIssues mon ++ staleIssues now mon).any q) =
      ((decide ((totalActiveConnections mon : ℚ) > mon.thresholds.maxConnections) &&
          q { issueType := "high_connection_count", severity := "warning" }) ||
        (mon.toolMetrics.any (fun p => toolCritical mon.thresholds.maxErrorRate p.2) &&
          q { issueType := "high_error_rate", severity := "critical" }) ||
        (mon.toolMetrics.any (fun p => toolSlow mon.thresholds.maxResponseTime p.2) &&
          q { issueType := "slow_response", severity := "warning" }) ||
        ((!(mon.connections.filter (fun p =>
            decide (p.2.lastActivity < now - mon.thresholds.connectionTimeout))).isEmpty) &&
          q { issueType := "stale_connections", severity := "info" })) := by
    intro q
    simp [List.any_append, connectionCountIssues_any, staleIssues_any,
      errorRateIssues_any, slowResponseIssues_any, Bool.or_assoc]
  unfold getHealthStatus specHealthStatus
  simp only [hall]
  by_cases hcrit : mon.toolMetrics.any
      (fun p => toolCritical mon.thresholds.maxErrorRate p.2) <;>
    by_cases hconn : (totalActiveConnections mon : ℚ) > mon.thresholds.maxConnections <;>
      by_cases hslow : mon.toolMetrics.any
          (fun p => toolSlow mon.thresholds.maxResponseTime p.2) <;>
        simp [hcrit, hconn, hslow]

/-! The per-tool metrics invariant under track_tool_call sequences. -/

theorem list_sum_le_length_mul (l : List ℚ) (c : ℚ) (h : ∀ x ∈ l, x ≤ c) :
    l.sum ≤ (l.length : ℚ) * c := by
  induction l with
  | nil => simp
  | cons x xs ih =>
    have hx := h x (List.mem_cons_self x xs)
    have hxs := ih (fun y hy => h y (List.mem_cons_of_mem _ hy))
    simp only [List.sum_cons, List.length_cons]
    push_cast
    linarith

theorem list_length_mul_le_sum (l : List ℚ) (c : ℚ) (h : ∀ x ∈ l, c ≤ x) :
    (l.length : ℚ) * c ≤ l.sum := by
  induction l with
  | nil => simp
  | cons x xs ih =>
    have hx := h x (List.mem_cons_self x xs)
    have hxs := ih (fun y hy => h y (List.mem_cons_of_mem _ hy))
    simp only [List.sum_cons, List.length_cons]
    push_cast
    linarith

theorem dequeAppend100_ne_nil (l : List ℚ) (x : ℚ) : dequeAppend100 l x ≠ [] := by
  unfold dequeAppend100
  split
  · next hlen =>
    intro hnil
    have hlen' := congrArg List.length hnil
    rw [List.length_drop] at hlen'
    simp only [List.length_nil] at hlen'
    omega
  · next hlen =>
    intro hnil
    have hlen' := congrArg List.length hnil
    simp at hlen'

theorem mem_dequeAppend100 (l : List ℚ) (x y : ℚ) (h : y ∈ dequeAppend100 l x) :
    y ∈ l ∨ y = x := by
  unfold dequeAppend100 at h
  split at h
  · have hy := List.drop_subset _ _ h
    rcases List.mem_append.mp hy with h1 | h1
    · exact Or.inl h1
    · exact Or.inr (List.mem_singleton.mp h1)
  · rcases List.mem_append.mp h with h1 | h1
    · exact Or.inl h1
    · exact Or.inr (List.mem_singleton.mp h1)

/-- The invariant holding for every tool-metrics record present in the
monitor's tool dict: call conservation, a populated window, a minimum
bounding the window from below, the maximum bounding it from above, and
the average equal to the window mean. -/
def TMInv (tm : ToolMetrics) : Prop :=
  tm.totalCalls = tm.successfulCalls + tm.failedCalls ∧
  1 ≤ tm.totalCalls ∧
  tm.recentResponseTimes ≠ [] ∧
  (∃ m, tm.minExecutionTime = some m ∧ ∀ x ∈ tm.recentResponseTimes, m ≤ x) ∧
  (∀ x ∈ tm.recentResponseTimes, x ≤ tm.maxExecutionTime) ∧
  tm.avgExecutionTime =
    tm.recentResponseTimes.sum / (tm.recentResponseTimes.length : ℚ)

/-- A freshly created tool-metrics record, as the lazy creation in
track_tool_call builds it. -/
def freshTM (n : String) : ToolMetrics := { toolName := n }

theorem mem_singleton_deque (t x : ℚ) (hx : x ∈ dequeAppend100 [] t) : x = t := by
  rcases mem_dequeAppend100 [] t x hx with h | h
  · cases h
  · exact h

theorem TMInv_track_fresh (n : String) (t : ℚ) (success : Bool)
    (errorType : Option String) :
    TMInv (trackToolCallTool (freshTM n) t success errorType) := by
  cases success <;> cases errorType <;>
    refine ⟨rfl, le_refl 1, dequeAppend100_ne_nil [] t, ⟨t, rfl, ?_⟩, ?_, rfl⟩ <;>
    · intro x hx
      have hxt := mem_singleton_deque t x hx
      subst hxt
      first
        | exact le_refl x
        | exact le_max_right 0 x

theorem dequeAppend100_isEmpty (l : List ℚ) (x : ℚ) :
    (dequeAppend100 l x).isEmpty = false := by
  cases h : dequeAppend100 l x with
  | nil => exact absurd h (dequeAppend100_ne_nil l x)
  | cons a as => rfl

theorem trackToolCallTool_totalCalls (tm : ToolMetrics) (t : ℚ) (s : Bool)
    (e : Option String) :
    (trackToolCallTool tm t s e).totalCalls = tm.totalCalls + 1 := by
  cases s <;> cases e <;> simp [trackToolCallTool, dequeAppend100_isEmpty]

theorem trackToolCallTool_succ_add_failed (tm : ToolMetrics) (t : ℚ) (s : Bool)
    (e : Option String) :
    (trackToolCallTool tm t s e).successfulCalls +
        (trackToolCallTool tm t s e).failedCalls =
      tm.successfulCalls + tm.failedCalls + 1 := by
  cases s <;> cases e <;> simp [trackToolCallTool, dequeAppend100_isEmpty] <;> omega

theorem trackToolCallTool_recent (tm : ToolMetrics) (t : ℚ) (s : Bool)
    (e : Option String) :
    (trackToolCallTool tm t s e).recentResponseTimes =
      dequeAppend100 tm.recentResponseTimes t := by
  cases s <;> cases e <;> simp [trackToolCallTool, dequeAppend100_isEmpty]

theorem trackToolCallTool_min (tm : ToolMetrics) (t : ℚ) (s : Bool)
    (e : Option String) :
    (trackToolCallTool tm t s e).minExecutionTime =
      some (match tm.minExecutionTime with
            | none => t
            | some m => min m t) := by
  cases s <;> cases e <;> simp [trackToolCallTool, dequeAppend100_isEmpty]

theorem trackToolCallTool_max (tm : ToolMetrics) (t : ℚ) (s : Bool)
    (e : Option String) :
    (trackToolCallTool tm t s e).maxExecutionTime =
      max tm.maxExecutionTime t := by
  cases s <;> cases e <;> simp [trackToolCallTool, dequeAppend100_isEmpty]

theorem trackToolCallTool_avg (tm : ToolMetrics) (t : ℚ) (s : Bool)
    (e : Option String) :
    (trackToolCallTool tm t s e).avgExecutionTime =
      (dequeAppend100 tm.recentResponseTimes t).sum /
        ((dequeAppend100 tm.recentResponseTimes t).length : ℚ) := by
  cases s <;> cases e <;> simp [trackToolCallTool, dequeAppend100_isEmpty]

theorem TMInv_track_step (tm : ToolMetrics) (h : TMInv tm) (t : ℚ) (success : Bool)
    (errorType : Option String) :
    TMInv (trackToolCallTool tm t success errorType) := by
  obtain ⟨hcons, htot, hne, ⟨m, hm, hmle⟩, hmax, havg⟩ := h
  have h1 := trackToolCallTool_totalCalls tm t success errorType
  have h2 := trackToolCallTool_succ_add_failed tm t success errorType
  refine ⟨by omega, by omega, ?_, ⟨min m t, ?_, ?_⟩, ?_, ?_⟩
  · rw [trackToolCallTool_recent]
    exact dequeAppend100_ne_nil _ t
  · rw [trackToolCallTool_min, hm]
  · intro x hx
    rw [trackToolCallTool_recent] at hx
    rcases mem_dequeAppend100 _ _ _ hx with hx1 | hx1
    · exact le_trans (min_le_left m t) (hmle x hx1)
    · rw [hx1]
      exact min_le_right m t
  · intro x hx
    rw [trackToolCallTool_recent] at hx
    rw [trackToolCallTool_max]
    rcases mem_dequeAppend100 _ _ _ hx with hx1 | hx1
    · exact le_trans (hmax x hx1) (le_max_left _ t)
    · rw [hx1]
      exact le_max_right _ t
  · rw [trackToolCallTool_avg, trackToolCallTool_recent]

/-- The tool-metrics dict after track_tool_call: the connection-side update
leaves it untouched, then the lazily created or existing record for the
tool is updated in place. -/
theorem trackToolCall_toolMetrics (mon : MonitorState) (cid tname : String)
    (t : ℚ) (s : Bool) (e : Option String) :
    (trackToolCall mon cid tname t s e).toolMetrics =
      dictSet mon.toolMetrics tname
        (trackToolCallTool ((dictGet mon.toolMetrics tname).getD (freshTM tname))
          t s e) := by
  unfold trackToolCall
  cases hc : dictGet mon.connections cid <;> simp [freshTM]

/-- The invariant asserted of every record present in the tool dict. -/
def monitorToolInv (mon : MonitorState) : Prop :=
  ∀ k tm, dictGet mon.toolMetrics k = some tm → TMInv tm

theorem monitorToolInv_track (mon : MonitorState) (h : monitorToolInv mon)
    (cid tname : String) (t : ℚ) (s : Bool) (e : Option String) :
    monitorToolInv (trackToolCall mon cid tname t s e) := by
  intro k tm hk
  rw [trackToolCall_toolMetrics] at hk
  by_cases hkt : k = tname
  · rw [hkt, dictGet_dictSet_self] at hk
    injection hk with hk'
    subst hk'
    cases hg : dictGet mon.toolMetrics tname with
    | none => exact TMInv_track_fresh tname t s e
    | some tm' => exact TMInv_track_step tm' (h tname tm' hg) t s e
  · rw [dictGet_dictSet_ne _ _ _ _ hkt] at hk
    exact h k tm hk

theorem monitorToolInv_apply (evs : List ToolCallEvent) :
    ∀ mon, monitorToolInv mon → monitorToolInv (applyToolCalls mon evs) := by
  induction evs with
  | nil => intro mon h; exact h
  | cons ev evs ih =>
    intro mon h
    have hstep : applyToolCalls mon (ev :: evs) =
        applyToolCalls (trackToolCall mon ev.connectionId ev.toolName
          ev.executionTime ev.success ev.errorType) evs := by
      simp [applyToolCalls, List.foldl_cons]
    rw [hstep]
    exact ih _ (monitorToolInv_track mon h _ _ _ _ _)

/-- C7: after any sequence of track_tool_call events on a fresh monitor,
every tool's metrics satisfy total = successful + failed, and once the
tool has at least one call its all-time minimum bounds from below, and
its all-time maximum bounds from above, the average computed over the
rolling window of at most the 100 most recent latencies. -/
theorem tool_metrics_invariant (evs : List ToolCallEvent) (tool : String)
    (tm : ToolMetrics)
    (h : dictGet (applyToolCalls {} evs).toolMetrics tool = some tm) :
    tm.totalCalls = tm.successfulCalls + tm.failedCalls ∧
      (1 ≤ tm.totalCalls →
        ∃ m, tm.minExecutionTime = some m ∧ m ≤ tm.avgExecutionTime ∧
          tm.avgExecutionTime ≤ tm.maxExecutionTime) := by
  have hinv : monitorToolInv (applyToolCalls {} evs) := by
    apply monitorToolInv_apply
    intro k tm' hk'
    simp [dictGet, List.find?] at hk'
  obtain ⟨hcons, htot, hne, ⟨m, hm, hmle⟩, hmax, havg⟩ := hinv tool tm h
  have hlenpos : (0 : ℚ) < (tm.recentResponseTimes.length : ℚ) := by
    have hlen : tm.recentResponseTimes.length ≠ 0 := by
      intro h0
      exact hne (List.length_eq_zero.mp h0)
    exact_mod_cast Nat.pos_of_ne_zero hlen
  refine ⟨hcons, fun _ => ⟨m, hm, ?_, ?_⟩⟩
  · rw [havg, le_div_iff₀ hlenpos, mul_comm]
    exact list_length_mul_le_sum tm.recentResponseTimes m hmle
  · rw [havg, div_le_iff₀ hlenpos, mul_comm]
    exact list_sum_le_length_mul tm.recentResponseTimes tm.maxExecutionTime hmax

/-- C7 witness: a single successful rag_search call of 2 seconds. -/
theorem tool_metrics_invariant_witness :
    ∃ tm, dictGet (applyToolCalls {}
        [{ connectionId := "conn-1", toolName := "rag_search",
           executionTime := 2, success := true }]).toolMetrics "rag_search"
        = some tm ∧
      (tm.totalCalls = tm.successfulCalls + tm.failedCalls ∧
        (1 ≤ tm.totalCalls →
          ∃ m, tm.minExecutionTime = some m ∧ m ≤ tm.avgExecutionTime ∧
            tm.avgExecutionTime ≤ tm.maxExecutionTime)) :=
  ⟨trackToolCallTool (freshTM "rag_search") 2 true none, rfl,
    tool_metrics_invariant
      [{ connectionId := "conn-1", toolName := "rag_search", executionTime := 2,
         success := true }]
      "rag_search" (trackToolCallTool (freshTM "rag_search") 2 true none) rfl⟩

/-! Lexicographic comparison of parsed dotted-numeric version keys, and the
maximality of the version selected from an exact-match set. -/

/-- Lexicographic comparison of numeric key tuples; agrees with pyListCmp
on tuples of ints. -/
def ncmp : List Nat → List Nat → Ordering
  | [], [] => Ordering.eq
  | [], _ :: _ => Ordering.lt
  | _ :: _, [] => Ordering.gt
  | a :: as', b :: bs =>
    match compare a b with
    | Ordering.eq => ncmp as' bs
    | o => o

theorem pyListCmp_map_int (ns : List Nat) :
    ∀ ms, pyListCmp (ns.map PyVal.int) (ms.map PyVal.int) = some (ncmp ns ms) := by
  induction ns with
  | nil => intro ms; cases ms <;> rfl
  | cons a as ih =>
    intro ms
    cases ms with
    | nil => rfl
    | cons b bs =>
      simp only [List.map_cons, pyListCmp, pyValCmp, ncmp]
      cases compare a b <;> simp [ih]

theorem ncmp_self (ns : List Nat) : ncmp ns ns = Ordering.eq := by
  induction ns with
  | nil => rfl
  | cons a as ih =>
    simp only [ncmp]
    rw [Nat.compare_eq_eq.mpr rfl]
    exact ih

theorem ncmp_gt_iff_lt (ns : List Nat) :
    ∀ ms, ncmp ns ms = Ordering.gt ↔ ncmp ms ns = Ordering.lt := by
  induction ns with
  | nil => intro ms; cases ms <;> simp [ncmp]
  | cons a as ih =>
    intro ms
    cases ms with
    | nil => simp [ncmp]
    | cons b bs =>
      simp only [ncmp]
      rcases hab : compare a b with _ | _ | _ <;>
        rcases hba : compare b a with _ | _ | _ <;>
        first
          | exact ih bs
          | (exfalso
             first
               | (have h1 := Nat.compare_eq_lt.mp hab
                  have h2 := Nat.compare_eq_lt.mp hba
                  omega)
               | (have h1 := Nat.compare_eq_lt.mp hab
                  have h2 := Nat.compare_eq_eq.mp hba
                  omega)
               | (have h1 := Nat.compare_eq_eq.mp hab
                  have h2 := Nat.compare_eq_lt.mp hba
                  omega)
               | (have h1 := Nat.compare_eq_eq.mp hab
                  have h2 := Nat.compare_eq_gt.mp hba
                  omega)
               | (have h1 := Nat.compare_eq_gt.mp hab
                  have h2 := Nat.compare_eq_eq.mp hba
                  omega)
               | (have h1 := Nat.compare_eq_gt.mp hab
                  have h2 := Nat.compare_eq_gt.mp hba
                  omega))
          | simp

theorem ncmp_eq_imp (ns : List Nat) :
    ∀ ms, ncmp ns ms = Ordering.eq → ns = ms := by
  induction ns with
  | nil => intro ms h; cases ms with | nil => rfl | cons b bs => cases h
  | cons a as ih =>
    intro ms h
    cases ms with
    | nil => cases h
    | cons b bs =>
      simp only [ncmp] at h
      rcases hab : compare a b with _ | _ | _ <;> rw [hab] at h
      · cases h
      · rw [Nat.compare_eq_eq.mp hab, ih bs h]
      · cases h

theorem ncmp_lt_trans (ns : List Nat) :
    ∀ ms ks, ncmp ns ms = Ordering.lt → ncmp ms ks = Ordering.lt →
      ncmp ns ks = Ordering.lt := by
  induction ns with
  | nil =>
    intro ms ks h1 h2
    cases ks with
    | nil =>
      cases ms with
      | nil => cases h1
      | cons b bs => cases h2
    | cons c cs => rfl
  | cons a as ih =>
    intro ms ks h1 h2
    cases ms with
    | nil => cases h1
    | cons b bs =>
      cases ks with
      | nil => cases h2
      | cons c cs =>
        simp only [ncmp] at h1 h2 ⊢
        rcases hab : compare a b with _ | _ | _ <;> rw [hab] at h1
        · rcases hbc : compare b c with _ | _ | _ <;> rw [hbc] at h2
          · have g1 := Nat.compare_eq_lt.mp hab
            have g2 := Nat.compare_eq_lt.mp hbc
            rw [Nat.compare_eq_lt.mpr (by omega)]
          · have g1 := Nat.compare_eq_lt.mp hab
            have g2 := Nat.compare_eq_eq.mp hbc
            rw [Nat.compare_eq_lt.mpr (by omega)]
          · cases h2
        · rcases hbc : compare b c with _ | _ | _ <;> rw [hbc] at h2
          · have g1 := Nat.compare_eq_eq.mp hab
            have g2 := Nat.compare_eq_lt.mp hbc
            rw [Nat.compare_eq_lt.mpr (by omega)]
          · have g1 := Nat.compare_eq_eq.mp hab
            have g2 := Nat.compare_eq_eq.mp hbc
            rw [Nat.compare_eq_eq.mpr (by omega)]
            exact ih bs cs h1 h2
          · cases h2
        · cases h1

/-- Not-greater on parsed keys is preserved when the running best is
replaced by a strictly greater candidate, and when a not-greater
candidate is skipped; both shapes reduce to transitivity. -/
theorem ncmp_not_gt_of_le_lt (kx kb kw : List Nat)
    (hxb : ncmp kx kb ≠ Ordering.gt) (hbw : ncmp kw kb = Ordering.gt) :
    ncmp kx kw ≠ Ordering.gt := by
  intro hxw
  have hwx : ncmp kw kx = Ordering.lt := (ncmp_gt_iff_lt kx kw).mp hxw
  have hbw' : ncmp kb kw = Ordering.lt := (ncmp_gt_iff_lt kw kb).mp hbw
  rcases hx : ncmp kx kb with _ | _ | _
  · have := ncmp_lt_trans kw kx kb hwx hx
    have := (ncmp_gt_iff_lt kx kw).mpr hwx
    have hcontra := ncmp_lt_trans kb kw kx hbw' hwx
    have : ncmp kb kb = Ordering.lt := ncmp_lt_trans kb kx kb hcontra hx
    rw [ncmp_self] at this
    cases this
  · have hxb' := ncmp_eq_imp kx kb hx
    subst hxb'
    have : ncmp kx kx = Ordering.lt := ncmp_lt_trans kx kw kx hbw' hwx
    rw [ncmp_self] at this
    cases this
  · exact hxb hx

theorem ncmp_not_gt_of_le_le (kw kb km : List Nat)
    (hwb : ncmp kw kb ≠ Ordering.gt) (hbm : ncmp kb km ≠ Ordering.gt) :
    ncmp kw km ≠ Ordering.gt := by
  intro hwm
  have hmw : ncmp km kw = Ordering.lt := (ncmp_gt_iff_lt kw km).mp hwm
  rcases hw : ncmp kw kb with _ | _ | _
  · rcases hb : ncmp kb km with _ | _ | _
    · have hmb : ncmp km kb = Ordering.lt := ncmp_lt_trans km kw kb hmw hw
      have : ncmp kb kb = Ordering.lt := ncmp_lt_trans kb km kb hb hmb
      rw [ncmp_self] at this
      cases this
    · have hbm' := ncmp_eq_imp kb km hb
      subst hbm'
      have : ncmp kb kb = Ordering.lt := ncmp_lt_trans kb kw kb hmw hw
      rw [ncmp_self] at this
      cases this
    · exact hbm hb
  · have heq := ncmp_eq_imp kw kb hw
    subst heq
    rcases hb : ncmp kw km with _ | _ | _
    · have : ncmp kw kw = Ordering.lt := ncmp_lt_trans kw km kw hb hmw
      rw [ncmp_self] at this
      cases this
    · have heq2 := ncmp_eq_imp kw km hb
      rw [heq2, ncmp_self] at hwm
      cases hwm
    · exact hbm hb
  · exact hwb hw

theorem pyTupleKey_of_parse (s : String) (ks : List Nat) (h : vKey? s = some ks) :
    pyTupleKey s = ks.map PyVal.int := by
  unfold pyTupleKey
  rw [h]

theorem selectLatestGo_max (l : List String) :
    ∀ best kb, vKey? best = some kb →
      (∀ v ∈ l, (vKey? v).isSome) →
      ∃ m km, selectLatestGo best l = some m ∧ (m = best ∨ m ∈ l) ∧
        vKey? m = some km ∧ ncmp kb km ≠ Ordering.gt ∧
        ∀ v ∈ l, ∀ kv, vKey? v = some kv → ncmp kv km ≠ Ordering.gt := by
  induction l with
  | nil =>
    intro best kb hkb _
    refine ⟨best, kb, rfl, Or.inl rfl, hkb, ?_, ?_⟩
    · rw [ncmp_self]
      intro h
      cases h
    · intro v hv
      cases hv
  | cons w ws ih =>
    intro best kb hkb hall
    obtain ⟨kw, hkw⟩ := Option.isSome_iff_exists.mp
      (hall w (List.mem_cons_self w ws))
    have hcmp : pyListCmp (pyTupleKey w) (pyTupleKey best) = some (ncmp kw kb) := by
      rw [pyTupleKey_of_parse w kw hkw, pyTupleKey_of_parse best kb hkb]
      exact pyListCmp_map_int kw kb
    have hallws : ∀ v ∈ ws, (vKey? v).isSome :=
      fun v hv => hall v (List.mem_cons_of_mem _ hv)
    simp only [selectLatestGo, hcmp]
    cases hc : ncmp kw kb with
    | gt =>
      obtain ⟨m, km, hsel, hmem, hkm, hwm, hbound⟩ := ih w kw hkw hallws
      have hbw : ncmp kb kw ≠ Ordering.gt := by
        rw [(ncmp_gt_iff_lt kw kb).mp hc]
        intro h
        cases h
      refine ⟨m, km, hsel, ?_, hkm, ncmp_not_gt_of_le_le kb kw km hbw hwm, ?_⟩
      · rcases hmem with h | h
        · exact Or.inr (h ▸ List.mem_cons_self w ws)
        · exact Or.inr (List.mem_cons_of_mem _ h)
      · intro v hv kv hkv
        rcases List.mem_cons.mp hv with h | h
        · subst h
          rw [hkw] at hkv
          injection hkv with e
          subst e
          exact hwm
        · exact hbound v h kv hkv
    | lt =>
      obtain ⟨m, km, hsel, hmem, hkm, hbm, hbound⟩ := ih best kb hkb hallws
      have hwkb : ncmp kw kb ≠ Ordering.gt := by
        rw [hc]
        intro h
        cases h
      refine ⟨m, km, hsel, ?_, hkm, hbm, ?_⟩
      · rcases hmem with h | h
        · exact Or.inl h
        · exact Or.inr (List.mem_cons_of_mem _ h)
      · intro v hv kv hkv
        rcases List.mem_cons.mp hv with h | h
        · subst h
          rw [hkw] at hkv
          injection hkv with e
          subst e
          exact ncmp_not_gt_of_le_le kw kb km hwkb hbm
        · exact hbound v h kv hkv
    | eq =>
      obtain ⟨m, km, hsel, hmem, hkm, hbm, hbound⟩ := ih best kb hkb hallws
      have hwkb : ncmp kw kb ≠ Ordering.gt := by
        rw [hc]
        intro h
        cases h
      refine ⟨m, km, hsel, ?_, hkm, hbm, ?_⟩
      · rcases hmem with h | h
        · exact Or.inl h
        · exact Or.inr (List.mem_cons_of_mem _ h)
      · intro v hv kv hkv
        rcases List.mem_cons.mp hv with h | h
        · subst h
          rw [hkw] at hkv
          injection hkv with e
          subst e
          exact ncmp_not_gt_of_le_le kw kb km hwkb hbm
        · exact hbound v h kv hkv

theorem selectLatestVersion_max (l : List String) (hne : l ≠ [])
    (hall : ∀ v ∈ l, (vKey? v).isSome) :
    ∃ m km, selectLatestVersion l = some m ∧ m ∈ l ∧ vKey? m = some km ∧
      ∀ v ∈ l, ∀ kv, vKey? v = some kv → ncmp kv km ≠ Ordering.gt := by
  cases l with
  | nil => exact absurd rfl hne
  | cons b rest =>
    obtain ⟨kb, hkb⟩ := Option.isSome_iff_exists.mp
      (hall b (List.mem_cons_self b rest))
    obtain ⟨m, km, hsel, hmem, hkm, hbb, hbound⟩ :=
      selectLatestGo_max rest b kb hkb
        (fun v hv => hall v (List.mem_cons_of_mem _ hv))
    refine ⟨m, km, hsel, ?_, hkm, ?_⟩
    · rcases hmem with h | h
      · exact h ▸ List.mem_cons_self b rest
      · exact List.mem_cons_of_mem _ h
    · intro v hv kv hkv
      rcases List.mem_cons.mp hv with h | h
      · subst h
        rw [hkb] at hkv
        injection hkv with e
        subst e
        exact hbb
      · exact hbound v h kv hkv

theorem negotiateProtocol_exact (reg : ProtocolVersionRegistry) (m : NegMatrix)
    (caps : ClientCapabilities)
    (hne : (extractClientVersions caps).filter
        (fun v => (getSupportedVersions reg).contains v) ≠ []) :
    negotiateProtocol reg m caps =
      selectLatestVersion ((extractClientVersions caps).filter
        (fun v => (getSupportedVersions reg).contains v)) := by
  have hfalse : ((extractClientVersions caps).filter
      (fun v => (getSupportedVersions reg).contains v)).isEmpty = false := by
    cases h : (extractClientVersions caps).filter
        (fun v => (getSupportedVersions reg).contains v) with
    | nil => exact absurd h hne
    | cons a as => rfl
  simp only [negotiateProtocol, hfalse]
  simp

/-- C4: whenever the extracted client versions and the registered server
versions intersect and every version in the intersection parses as a
dotted numeral, negotiate_protocol returns some member of the
intersection whose key is maximal under the dotted-numeric order. -/
theorem negotiate_protocol_exact_max (reg : ProtocolVersionRegistry)
    (m : NegMatrix) (caps : ClientCapabilities)
    (hall : ∀ v ∈ (extractClientVersions caps).filter
        (fun v => (getSupportedVersions reg).contains v), (vKey? v).isSome)
    (hne : (extractClientVersions caps).filter
        (fun v => (getSupportedVersions reg).contains v) ≠ []) :
    ∃ best kb, negotiateProtocol reg m caps = some best ∧
      best ∈ (extractClientVersions caps).filter
        (fun v => (getSupportedVersions reg).contains v) ∧
      vKey? best = some kb ∧
      ∀ v ∈ (extractClientVersions caps).filter
          (fun v => (getSupportedVersions reg).contains v),
        ∀ kv, vKey? v = some kv → ncmp kv kb ≠ Ordering.gt := by
  rw [negotiateProtocol_exact reg m caps hne]
  exact selectLatestVersion_max _ hne hall

/-- Capability document of a client declaring supported versions 1.0 and
1.1 in that order. -/
def capsBoth : ClientCapabilities := { supportedVersions := some ["1.0", "1.1"] }

/-- C4 witness: with servers 1.0 and 1.1 and a client declaring both, the
negotiated version is the maximum 1.1. -/
theorem negotiate_protocol_exact_max_witness :
    (∀ v ∈ (extractClientVersions capsBoth).filter
        (fun v => (getSupportedVersions scenarioRegistry).contains v),
      (vKey? v).isSome) ∧
    (extractClientVersions capsBoth).filter
        (fun v => (getSupportedVersions scenarioRegistry).contains v) ≠ [] ∧
    (∃ best kb,
      negotiateProtocol scenarioRegistry scenarioMatrix capsBoth = some best ∧
      best ∈ (extractClientVersions capsBoth).filter
        (fun v => (getSupportedVersions scenarioRegistry).contains v) ∧
      vKey? best = some kb ∧
      ∀ v ∈ (extractClientVersions capsBoth).filter
          (fun v => (getSupportedVersions scenarioRegistry).contains v),
        ∀ kv, vKey? v = some kv → ncmp kv kb ≠ Ordering.gt) ∧
    negotiateProtocol scenarioRegistry scenarioMatrix capsBoth = some "1.1" :=
  ⟨by decide, by decide,
    negotiate_protocol_exact_max scenarioRegistry scenarioMatrix capsBoth
      (by decide) (by decide),
    by decide⟩

/-! The Ready-state id echo and the loop-level error reply that drops it. -/

/-- A ping carrying an id, for exercising the loop-level error path. -/
def pingWithId : Msg := { type := "ping", id := some (MsgId.str "42") }

/-- C9: the claim fails: for a Ready-state ping carrying id 42 whose pong
reply raises while being sent, the server's reply to that message is the
loop-level MESSAGE_PROCESSING_ERROR frame, which carries the request's
id in its request_id field and no id field at all. -/
theorem message_loop_error_reply_drops_id_counterexample :
    (messageLoop scenarioRegistry "1.0" adapterV10 dispatchAlwaysOk
        (fun o => o.type = "pong") [pingWithId]).1 =
      [{ type := "error", requestId := some (MsgId.str "42"),
         code := some "MESSAGE_PROCESSING_ERROR" }] ∧
    pingWithId.id = some (MsgId.str "42") ∧
    ({ type := "error", requestId := some (MsgId.str "42"),
       code := some "MESSAGE_PROCESSING_ERROR" } : OutMsg).id = none ∧
    ({ type := "error", requestId := some (MsgId.str "42"),
       code := some "MESSAGE_PROCESSING_ERROR" } : OutMsg).id ≠ pingWithId.id := by
  decide

/-- C9 amended: every frame the Ready-state message loop sends in reply to
a client message either comes from handle_message — pong, tool_response,
tool_error, capabilities, protocol_info, the unknown-type error, or a
HANDLER_ERROR error — and then carries the request's id value in its id
field, or is the MESSAGE_PROCESSING_ERROR frame sent by the loop's own
exception handler when delivering the primary reply raises, and that
frame carries the request's id in its request_id field and no id field. -/
theorem message_loop_reply_id_echo (reg : ProtocolVersionRegistry) (v : String)
    (adapter : Adapter) (dispatch : String → Except String Unit)
    (sendFails : OutMsg → Bool) (msgs : List Msg) :
    ∀ out ∈ (messageLoop reg v adapter dispatch sendFails msgs).1,
      ∃ msg, msg ∈ msgs ∧
        ((out = (handleMessage reg (some v) adapter dispatch msg).1 ∧
            out.id = msg.id) ∨
          (out = messageProcessingErrorMsg msg ∧ out.id = none ∧
            out.requestId = msg.id)) := by
  induction msgs with
  | nil =>
    intro out hout
    cases hout
  | cons msg rest ih =>
    intro out hout
    simp only [messageLoop] at hout
    by_cases h1 : sendFails (handleMessage reg (some v) adapter dispatch msg).1
    · rw [if_pos h1] at hout
      by_cases h2 : sendFails (messageProcessingErrorMsg msg)
      · rw [if_pos h2] at hout
        cases hout
      · rw [if_neg h2] at hout
        rcases List.mem_cons.mp hout with h | h
        · exact ⟨msg, List.mem_cons_self msg rest,
            Or.inr ⟨h, h ▸ rfl, h ▸ rfl⟩⟩
        · obtain ⟨m', hm', hor⟩ := ih out h
          exact ⟨m', List.mem_cons_of_mem _ hm', hor⟩
    · rw [if_neg h1] at hout
      rcases List.mem_cons.mp hout with h | h
      · exact ⟨msg, List.mem_cons_self msg rest,
          Or.inl ⟨h, h ▸ handle_message_echoes_id reg (some v) adapter
            dispatch msg⟩⟩
      · obtain ⟨m', hm', hor⟩ := ih out h
        exact ⟨m', List.mem_cons_of_mem _ hm', hor⟩

/-- C9 witness: a ping with id 7 on an infallible transport; its pong reply
is in the loop's sent frames and echoes the id. -/
theorem message_loop_reply_id_echo_witness :
    ({ type := "pong", id := some (MsgId.str "7") } : OutMsg) ∈
        (messageLoop scenarioRegistry "1.0" adapterV10 dispatchAlwaysOk
          (fun _ => false) [{ type := "ping", id := some (MsgId.str "7") }]).1 ∧
      ∃ msg, msg ∈ [({ type := "ping", id := some (MsgId.str "7") } : Msg)] ∧
        ((({ type := "pong", id := some (MsgId.str "7") } : OutMsg) =
            (handleMessage scenarioRegistry (some "1.0") adapterV10
              dispatchAlwaysOk msg).1 ∧
            ({ type := "pong", id := some (MsgId.str "7") } : OutMsg).id =
              msg.id) ∨
          (({ type := "pong", id := some (MsgId.str "7") } : OutMsg) =
              messageProcessingErrorMsg msg ∧
            ({ type := "pong", id := some (MsgId.str "7") } : OutMsg).id = none ∧
            ({ type := "pong", id := some (MsgId.str "7") } : OutMsg).requestId =
              msg.id)) :=
  ⟨by decide,
    message_loop_reply_id_echo scenarioRegistry "1.0" adapterV10 dispatchAlwaysOk
      (fun _ => false) [{ type := "ping", id := some (MsgId.str "7") }]
      { type := "pong", id := some (MsgId.str "7") } (by decide)⟩
